import Mathlib

/-!
# Verification of the `ng-stack` HTTP mock backend (`HttpBackendService`)

Shallow embedding of the route-matching algorithm and the CRUD emulation
engine of `HttpBackendService` (file `http-backend.service.ts`), together
with the configuration defaults of `ApiMockConfig` (file `types.ts`).

Modelling conventions:
* JavaScript dynamic values are embedded as `JsVal` (numbers as `Int`:
  no claim exercises fractional or non-finite numbers);
* JavaScript objects are association lists `JsObj` with unique keys,
  manipulated only through `getField` / `setField` / `deleteField`
  so that JS property-order semantics are preserved;
* JS loose equality (`==`) is `looseEq`, restricted to the embedded
  value space, following the ECMA abstract-equality table;
* strings are Lean `String`s; the character-level operations used by the
  source (`split`, `substr`, `length`, `join`) are defined structurally
  over `String.data` so that they evaluate inside the kernel;
* array mutation is modelled by returning the new array;
* thrown JS exceptions are `Except.error`.
-/

namespace Mock

/-- The embedded JavaScript value space. -/
inductive JsVal where
  | undef
  | null
  | bool (b : Bool)
  | num (n : Int)
  | str (s : String)
deriving DecidableEq, Repr

/-- A JavaScript object: an association list from property names to values.
JS objects have unique keys; all constructions below preserve that. -/
abbrev JsObj := List (String × JsVal)

/-- JS truthiness (`Boolean(v)`), restricted to the embedded values. -/
def truthy : JsVal → Bool
  | JsVal.undef => false
  | .null => false
  | .bool b => b
  | .num n => n != 0
  | .str s => s != ""

/-- One decimal digit of a JS numeric string. -/
def charDigit? (c : Char) : Option Nat :=
  if '0' ≤ c ∧ c ≤ '9' then some (c.toNat - '0'.toNat) else none

/-- Accumulating decimal parser (structural, kernel-friendly). -/
def natOfDigitsAux : List Char → Nat → Option Nat
  | [], acc => some acc
  | c :: rest, acc =>
    match charDigit? c with
    | some d => natOfDigitsAux rest (acc * 10 + d)
    | none => none

/-- JS `ToNumber` on strings, restricted to the integer forms the engine
manipulates: the empty string converts to `0`, an optional minus sign
followed by decimal digits converts to the signed value, and every other
string is `NaN` (`none`). -/
def strToNumJs (s : String) : Option Int :=
  match s.data with
  | [] => some 0
  | '-' :: rest =>
    match rest with
    | [] => none
    | _ => (natOfDigitsAux rest 0).map (fun n => -(n : Int))
  | l => (natOfDigitsAux l 0).map (fun n => (n : Int))

/-- Embeds `ToPrimitive`-for-equality: booleans coerce to numbers, numbers and
strings stand for themselves, `null`/`undefined` have no numeric side here. -/
def jsPrim : JsVal → Option (Sum Int String)
  | .bool b => some (.inl (if b then 1 else 0))
  | .num n => some (.inl n)
  | .str s => some (.inr s)
  | _ => none

/-- JS loose equality `==` on the embedded values (ECMA abstract equality):
`null == undefined`, numbers and strings compare after `ToNumber` of the
string, booleans coerce to numbers first. -/
def looseEq (a b : JsVal) : Bool :=
  match a, b with
  | JsVal.undef, JsVal.undef => true
  | JsVal.undef, .null => true
  | .null, JsVal.undef => true
  | .null, .null => true
  | x, y =>
    match jsPrim x, jsPrim y with
    | some (.inl m), some (.inl n) => m == n
    | some (.inr s), some (.inr t) => s == t
    | some (.inl m), some (.inr t) => strToNumJs t == some m
    | some (.inr s), some (.inl n) => strToNumJs s == some n
    | _, _ => false

/-- JS string conversion used by template literals. -/
def jsValToString : JsVal → String
  | JsVal.undef => "undefined"
  | .null => "null"
  | .bool b => if b then "true" else "false"
  | .num n => toString n
  | .str s => s

/-- Property read `o[k]`: `undefined` when the key is absent. -/
def getField : JsObj → String → JsVal
  | [], _ => JsVal.undef
  | p :: rest, k => if p.1 = k then p.2 else getField rest k

/-- Property write `o[k] = v`: replaces the value in place when the key
exists (JS keeps the original slot order), appends otherwise. -/
def setField : JsObj → String → JsVal → JsObj
  | [], k, v => [(k, v)]
  | p :: rest, k, v => if p.1 = k then (k, v) :: rest else p :: setField rest k v

/-- Embeds `Object.keys(o)`. -/
def keys (o : JsObj) : List String := o.map Prod.fst

/-- Embeds `Object.assign(o, u)`: writes every property of `u` onto `o` in order. -/
def assignObj : JsObj → JsObj → JsObj
  | o, [] => o
  | o, p :: rest => assignObj (setField o p.1 p.2) rest

/-- Embeds `JSON.parse(JSON.stringify(o))` on an object: drops properties whose
value is `undefined`, keeps everything else (the engine's `clone`). -/
def cloneObj (o : JsObj) : JsObj :=
  o.filter (fun p => p.2 != JsVal.undef)

/-- The `Option String`-valued `restId` of a chain param, as a JS value. -/
def optStrVal : Option String → JsVal
  | some s => .str s
  | none => JsVal.undef

/-! ## Character-level string operations

The source manipulates URLs with `String.prototype.split`, `substr`,
`length` and `Array.prototype.join`. They are embedded structurally over
`String.data` so concrete URLs evaluate inside the kernel. -/

/-- Embeds `s.split(sep)` on a single-character separator (JS semantics:
`"".split = [""]`, separators at the ends produce empty segments). -/
def splitChars (sep : Char) : List Char → List (List Char)
  | [] => [[]]
  | c :: rest =>
    let r := splitChars sep rest
    if c = sep then [] :: r
    else (c :: r.headD []) :: r.tail

/-- Embeds `url.split('/')` etc. -/
def jsSplit (s : String) (sep : Char) : List String :=
  (splitChars sep s.data).map (fun l => String.mk l)

/-- The characters of `s` before the first occurrence of the two-character
separator `/:`; the whole string when it does not occur. -/
def takeUntilSlashColon : List Char → List Char
  | [] => []
  | '/' :: ':' :: _ => []
  | c :: rest => c :: takeUntilSlashColon rest

/-- Embeds `path.split('/:')[0]` as used by `getRootPaths`. -/
def firstSplitPart (s : String) : String := String.mk (takeUntilSlashColon s.data)

/-- Embeds `s.substr(0, n)` (character count). -/
def jsTake (s : String) (n : Nat) : String := String.mk (s.data.take n)

/-- Embeds `s.slice(n)` (drop the first `n` characters). -/
def jsDrop (s : String) (n : Nat) : String := String.mk (s.data.drop n)

/-- Embeds `s.length` (character count). -/
def jsLength (s : String) : Nat := s.data.length

/-- Embeds `parts.join(sep)`. -/
def jsJoin (sep : String) : List String → String
  | [] => ""
  | [x] => x
  | x :: y :: xs => x ++ sep ++ jsJoin sep (y :: xs)

/-- Embeds `[a, b].filter(s => s).join('/')`: drops falsy (empty) strings. -/
def joinTruthy (a b : String) : String :=
  jsJoin "/" ([a, b].filter (fun s => s ≠ ""))

example : jsSplit "posts/123" '/' = ["posts", "123"] := by decide
example : jsSplit "posts/" '/' = ["posts", ""] := by decide
example : firstSplitPart "posts/featured/:id" = "posts/featured" := by decide
example : joinTruthy "" "api/posts" = "api/posts" := by decide

example : looseEq (.num 1) (.str "1") = true := by decide
example : looseEq (.num 0) (.str "") = true := by decide
example : looseEq .null (.bool false) = false := by decide
example : looseEq JsVal.undef .null = true := by decide
example : truthy (.num 0) = false := by decide
example : getField [("id", .num 3)] "id" = .num 3 := by decide
example : setField [("a", .num 1), ("b", .num 2)] "a" (.num 7)
    = [("a", .num 7), ("b", .num 2)] := by decide

/-! ## HTTP methods, status codes, configuration, responses -/

/-- Embeds `HttpMethod` from `types.ts`. -/
inductive HttpMethod where
  | GET | HEAD | POST | PUT | DELETE | TRACE | OPTIONS | CONNECT | PATCH
deriving DecidableEq, Repr

/- The status codes the engine emits (`Status` from `http-status-codes`). -/
namespace Status

def OK : Nat := 200
def CREATED : Nat := 201
def NO_CONTENT : Nat := 204
def BAD_REQUEST : Nat := 400
def NOT_FOUND : Nat := 404
def METHOD_NOT_ALLOWED : Nat := 405
def CONFLICT : Nat := 409
def INTERNAL_SERVER_ERROR : Nat := 500

end Status

/-- Embeds `ApiMockConfig` with the default option values of `types.ts`. -/
structure ApiMockConfig where
  passThruUnknownUrl : Bool := false
  cacheFromLocalStorage : Bool := false
  delay : Nat := 500
  postUpdate204 : Bool := true
  postUpdate409 : Bool := false
  putUpdate204 : Bool := true
  putUpdate404 : Bool := true
  patchUpdate204 : Bool := true
  deleteNotFound404 : Bool := true
deriving Repr, DecidableEq

/-- The body content of a `ResponseOptions`: the engine stores either no
body, a single item, or a list of items. -/
inductive RespBody where
  | noBody
  | item (o : JsObj)
  | items (l : List JsObj)
deriving DecidableEq, Repr

/-- Embeds `ResponseOptions` restricted to the parts the claims observe: the
status, the body, and the `Location` header that `post` may set. -/
structure ResponseOptions where
  status : Nat
  body : RespBody
  location : Option String := none
deriving DecidableEq, Repr

/-- The result of one CRUD handler: either a `ResponseOptions`, or an
`HttpErrorResponse` produced through `makeError` (observed by its status). -/
inductive CrudResult where
  | response (r : ResponseOptions)
  | httpError (status : Nat)
deriving DecidableEq, Repr

/-! ## Routes and the root index (`getRootPaths`, `findRouteIndex`) -/

/-- The options record passed to a route's `dataCallback`
(`ApiMockDataCallbackOptions` in `types.ts`; `reqHeaders` and
`queryParams` are kept as abstract key/value lists). -/
structure DataCbOpts where
  items : List JsObj
  itemId : Option String
  httpMethod : HttpMethod
  parents : Option (List JsObj)
  queryParams : List (String × String)
  reqBody : Option JsObj
  reqHeaders : List (String × String)

/-- The value a `dataCallback` returns: an array of items, or any other
(primitive) JS value. -/
inductive CbRet where
  | arr (items : List JsObj)
  | prim (v : JsVal)

/-- JS truthiness of a callback's return value (arrays are always truthy). -/
def truthyRet : CbRet → Bool
  | .arr _ => true
  | .prim v => truthy v

/-- Embeds `ApiMockRoute` / `ApiMockRootRoute`: `host` is only ever set on root
routes (it is `undefined` on children, as in the source). -/
inductive Route where
  | mk (host : Option String) (path : String)
      (dataCallback : Option (DataCbOpts → CbRet))
      (propertiesForList : Option JsObj)
      (ignoreDataFromLocalStorage : Bool)
      (children : List Route)

def Route.host : Route → Option String
  | .mk h _ _ _ _ _ => h

def Route.path : Route → String
  | .mk _ p _ _ _ _ => p

def Route.dataCallback : Route → Option (DataCbOpts → CbRet)
  | .mk _ _ cb _ _ _ => cb

def Route.propertiesForList : Route → Option JsObj
  | .mk _ _ _ pf _ _ => pf

def Route.ignoreDataFromLocalStorage : Route → Bool
  | .mk _ _ _ _ ig _ => ig

def Route.children : Route → List Route
  | .mk _ _ _ _ _ cs => cs

/-- One entry of the root index (`PartialRoutes` element). -/
structure RootEntry where
  path : String
  length : Nat
  index : Nat
deriving DecidableEq, Repr

/-- Insert an entry into a list already sorted by descending `length`
(keeps equal lengths in their existing order, as a stable JS sort does). -/
def insertRootEntry (e : RootEntry) : List RootEntry → List RootEntry
  | [] => [e]
  | x :: xs => if e.length ≤ x.length then x :: insertRootEntry e xs else e :: x :: xs

/-- Embeds `rootRoutes.sort((a, b) => b.length - a.length)`. -/
def sortRootEntries (l : List RootEntry) : List RootEntry :=
  l.foldr insertRootEntry []

/-- Embeds `getRootPaths`: strip everything from the first `/:` of each root path,
join with the host when present, record length and original index, and
revert-sort by length. -/
def getRootPaths (routes : List Route) : List RootEntry :=
  sortRootEntries <| routes.enum.map fun p =>
    let part := firstSplitPart p.2.path
    let path := joinTruthy (p.2.host.getD "") part
    ⟨path, jsLength path, p.1⟩

/-- The match test of `findRouteIndex`: the URL truncated to
`rootRoute.length + 1` characters equals the root path or the root path
followed by `/` (the `+1` guards against `posts` matching `posts-other/…`). -/
def matchesRoot (e : RootEntry) (url : String) : Bool :=
  let partUrl := jsTake url (e.length + 1)
  partUrl == e.path || partUrl == e.path ++ "/"

/-- Embeds `findRouteIndex`: index of the first root entry whose path prefixes the
URL; `none` embeds the source's `-1`. -/
def findRouteIndex (rootRoutes : List RootEntry) (url : String) : Option Nat :=
  (rootRoutes.find? (fun e => matchesRoot e url)).map (fun e => e.index)

example :
    getRootPaths [.mk none "posts/:id" none none false [],
      .mk none "posts/featured/:id" none none false []]
      = [⟨"posts/featured", 14, 1⟩, ⟨"posts", 5, 0⟩] := by decide

example :
    findRouteIndex (getRootPaths [.mk none "posts/:id" none none false [],
      .mk none "posts/featured/:id" none none false []]) "posts/featured/1"
      = some 1 := by decide

example :
    findRouteIndex (getRootPaths [.mk none "posts/:id" none none false []])
      "posts-other/123" = none := by decide

example :
    findRouteIndex (getRootPaths [.mk (some "https://example.com") "posts/:id" none none false []])
      "https://example.com/posts/7" = some 0 := by decide

/-! ## Dry matching (`getRouteDryMatch`) -/

/-- Embeds `RouteDryMatch` from `types.ts`. -/
structure RouteDryMatch where
  splitedUrl : List String
  splitedRoute : List String
  hasLastRestId : Bool
  lastPrimaryKey : String := ""
  routes : List Route

/-- Embeds `seg.charAt(0) == ':'`. -/
def startsWithColon (s : String) : Bool := jsTake s 1 == ":"

/-- The recursive worker `setRouteDryMatch` inside `getRouteDryMatch`:
accumulates the joined route path along the tree and compares the URL's
segment count with the accumulated route path's segment count. -/
def setRouteDryMatch (countPartOfUrl : Nat) (splitedUrl : List String) :
    Route → String → List Route → List RouteDryMatch
  | route@(.mk _ _ _ _ _ children), pathOfRoute, routes =>
    let routes' := routes ++ [route]
    let pathOfRoute' := joinTruthy pathOfRoute route.path
    let splitedRoute := jsSplit pathOfRoute' '/'
    let countPartOfRoute := splitedRoute.length
    if countPartOfUrl > countPartOfRoute then
      (children.attach.map fun c =>
        setRouteDryMatch countPartOfUrl splitedUrl c.1 pathOfRoute' routes').flatten
    else if countPartOfUrl < countPartOfRoute - 1 then
      []
    else if countPartOfUrl = countPartOfRoute - 1 then
      let lastElement := (splitedRoute.getLast?).getD ""
      if startsWithColon lastElement then
        [⟨splitedUrl, splitedRoute.dropLast, false, jsDrop lastElement 1, routes'⟩]
      else
        []
    else
      let lastElement := (splitedRoute.getLast?).getD ""
      if startsWithColon lastElement then
        [⟨splitedUrl, splitedRoute, true, jsDrop lastElement 1, routes'⟩]
      else
        [⟨splitedUrl, splitedRoute, false, "", routes'⟩]
termination_by r _ _ => sizeOf r
decreasing_by
  have h1 : sizeOf c.1 < sizeOf children := List.sizeOf_lt_of_mem c.2
  simp only [Route.mk.sizeOf_spec]
  omega

/-- Embeds `getRouteDryMatch(normalizedUrl, rootRoute)`. -/
def getRouteDryMatch (normalizedUrl : String) (rootRoute : Route) : List RouteDryMatch :=
  let splitedUrl := jsSplit normalizedUrl '/'
  setRouteDryMatch splitedUrl.length splitedUrl rootRoute (rootRoute.host.getD "") []

/-! ## Chain resolution (`getChainParams`) -/

/-- Embeds `ChainParam` from `types.ts`; `route` is an `Option` because the source
indexes `routes[chainParams.length]`, which can be `undefined`. -/
structure ChainParam where
  cacheKey : String
  primaryKey : String
  restId : Option String := none
  route : Option Route := none

/-- Embeds `splitedUrl[i] || undefined`: the aligned URL segment, with an empty
(falsy) segment coerced to `undefined`. -/
def urlSegOpt (splitedUrl : List String) (i : Nat) : Option String :=
  match splitedUrl.get? i with
  | some s => if s = "" then none else some s
  | none => none

/-- Embeds `splitedUrl[i]` as pushed into the literal URL parts (joining treats a
missing segment as the empty string, as JS `join` renders `undefined`). -/
def urlSegD (splitedUrl : List String) (i : Nat) : String :=
  (splitedUrl.get? i).getD ""

/-- The `forEach` loop of `getChainParams`, walking the enumerated route
segments while accumulating the chain and the literal URL/route parts. -/
def chainLoop (splitedUrl : List String) (routes : List Route) :
    List (Nat × String) → List ChainParam → List String → List String →
      List ChainParam × List String × List String
  | [], chain, partsOfUrl, partsOfRoute => (chain, partsOfUrl, partsOfRoute)
  | (i, part) :: rest, chain, partsOfUrl, partsOfRoute =>
    if startsWithColon part then
      let link : ChainParam :=
        ⟨jsJoin "/" (splitedUrl.take i), jsDrop part 1, urlSegOpt splitedUrl i,
          routes.get? chain.length⟩
      chainLoop splitedUrl routes rest (chain ++ [link]) partsOfUrl partsOfRoute
    else
      chainLoop splitedUrl routes rest chain
        (partsOfUrl ++ [urlSegD splitedUrl i]) (partsOfRoute ++ [part])

/-- Embeds `getChainParams`: accepts a dry-match candidate only when the literal
URL parts, joined, equal the literal route parts, joined; `none` embeds the
source's `undefined` (no match). -/
def getChainParams (m : RouteDryMatch) : Option (List ChainParam) :=
  let r := chainLoop m.splitedUrl m.routes m.splitedRoute.enum [] [] []
  let chain :=
    if m.hasLastRestId then r.1
    else r.1 ++ [⟨jsJoin "/" m.splitedUrl, m.lastPrimaryKey, none, m.routes.getLast?⟩]
  if jsJoin "/" r.2.2 == jsJoin "/" r.2.1 then some chain else none

example :
    ((getChainParams ⟨["posts", "123"], ["posts", ":postId"], true, "postId",
        [.mk none "posts/:postId" none none false []]⟩).map
      (fun c => c.map (fun l => (l.cacheKey, l.primaryKey, l.restId))))
      = some [("posts", "postId", some "123")] := by decide

example :
    ((getChainParams ⟨["posts", "123", "comments"], ["posts", ":postId", "comments"], false, "commentId",
        [.mk none "posts/:postId" none none false [], .mk none "comments/:commentId" none none false []]⟩).map
      (fun c => c.map (fun l => (l.cacheKey, l.primaryKey, l.restId))))
      = some [("posts", "postId", some "123"),
              ("posts/123/comments", "commentId", none)] := by decide

example :
    ((getChainParams ⟨["posts-x", "123"], ["posts", ":postId"], true, "postId",
        [.mk none "posts/:postId" none none false []]⟩).map
      (fun c => c.map (fun l => (l.cacheKey, l.primaryKey, l.restId))))
      = none := by decide

/-! ## The CRUD engine (`genId`, `get`, `post`, `putOrPatch`, `delete`) -/

/-- Embeds `genId(writeableData, primaryKey)`: `reduce` with initial value `0`,
taking each item's primary-key value when it is a number and the running
value otherwise, then `+ 1`. -/
def genId (writeableData : List JsObj) (primaryKey : String) : Int :=
  (writeableData.foldl
    (fun prevId item =>
      let currId := match getField item primaryKey with
        | .num n => n
        | _ => prevId
      max prevId currId)
    0) + 1

/-- Embeds `MockData` from `types.ts`. -/
structure MockData where
  writeableData : List JsObj
  readonlyData : List JsObj

/-- The item lookup of `get` and `getParents`: the stored value under the
primary key must be truthy *and* loosely equal to the URL id. -/
def findWithTruthyPk (data : List JsObj) (primaryKey : String) (restId : Option String) :
    Option JsObj :=
  data.find? fun o =>
    truthy (getField o primaryKey) && looseEq (getField o primaryKey) (optStrVal restId)

/-- Embeds `get(req, headers, chainParam, mockData)`. -/
def get (chainParam : ChainParam) (mockData : MockData) : CrudResult :=
  match chainParam.restId with
  | some _ =>
    match findWithTruthyPk mockData.writeableData chainParam.primaryKey chainParam.restId with
    | none => .httpError Status.NOT_FOUND
    | some item => .response ⟨Status.OK, .items [item], none⟩
  | none => .response ⟨Status.OK, .items mockData.readonlyData, none⟩

/-- Embeds `post(req, headers, chainParam, writeableData)`; returns the response
together with the collection as left after the in-place mutation. -/
def post (cfg : ApiMockConfig) (url : String) (body : Option JsObj)
    (chainParam : ChainParam) (writeableData : List JsObj) :
    CrudResult × List JsObj :=
  let item := cloneObj (body.getD [])
  let resourceUrl :=
    match chainParam.restId with
    | some _ => jsJoin "/" ((jsSplit url '/').dropLast)
    | none => url
  if chainParam.restId ≠ none then
    (.httpError Status.METHOD_NOT_ALLOWED, writeableData)
  else if chainParam.primaryKey = "" then
    (.httpError Status.BAD_REQUEST, writeableData)
  else
    let item :=
      if getField item chainParam.primaryKey = JsVal.undef then
        setField item chainParam.primaryKey (.num (genId writeableData chainParam.primaryKey))
      else item
    let id := getField item chainParam.primaryKey
    match writeableData.findIdx? (fun itm => looseEq (getField itm chainParam.primaryKey) id) with
    | none =>
      (.response ⟨Status.CREATED, .item item, some (resourceUrl ++ "/" ++ jsValToString id)⟩,
        writeableData ++ [item])
    | some itemIndex =>
      if cfg.postUpdate409 then
        (.httpError Status.CONFLICT, writeableData)
      else if cfg.postUpdate204 then
        (.response ⟨Status.NO_CONTENT, .noBody, none⟩, writeableData.set itemIndex item)
      else
        (.response ⟨Status.OK, .item item, none⟩, writeableData.set itemIndex item)

/-- The request item `putOrPatch` works with: the cloned body, its
primary-key field defaulted to the URL id when loosely `undefined`. -/
def reqItem (body : Option JsObj) (chainParam : ChainParam) : JsObj :=
  let item := cloneObj (body.getD [])
  if looseEq (getField item chainParam.primaryKey) JsVal.undef then
    setField item chainParam.primaryKey (optStrVal chainParam.restId)
  else item

/-- Embeds `putOrPatch(req, headers, chainParam, writeableData)`. -/
def putOrPatch (cfg : ApiMockConfig) (method : HttpMethod) (body : Option JsObj)
    (chainParam : ChainParam) (writeableData : List JsObj) :
    CrudResult × List JsObj :=
  let update204 := if method = .PUT then cfg.putUpdate204 else cfg.patchUpdate204
  if chainParam.primaryKey = "" then
    (.httpError Status.BAD_REQUEST, writeableData)
  else
    let item := reqItem body chainParam
    match chainParam.restId with
    | none => (.httpError Status.METHOD_NOT_ALLOWED, writeableData)
    | some restId =>
      if ¬ looseEq (.str restId) (getField item chainParam.primaryKey) then
        (.httpError Status.BAD_REQUEST, writeableData)
      else
        match writeableData.findIdx?
            (fun itm => looseEq (getField itm chainParam.primaryKey) (.str restId)) with
        | some itemIndex =>
          let stored := writeableData.getD itemIndex []
          let stored' :=
            if method = .PUT then
              stored.filter (fun p => decide (p.1 ∈ keys item))
            else stored
          let merged := assignObj stored' item
          (if update204 then .response ⟨Status.NO_CONTENT, .noBody, none⟩
            else .response ⟨Status.OK, .item item, none⟩,
            writeableData.set itemIndex merged)
        | none =>
          if cfg.putUpdate404 ∨ method = .PATCH then
            (.httpError Status.NOT_FOUND, writeableData)
          else
            (.response ⟨Status.CREATED, .item item, none⟩, writeableData ++ [item])

/-- Embeds `delete(req, headers, chainParam, writeableData)`. -/
def delete (cfg : ApiMockConfig) (chainParam : ChainParam) (writeableData : List JsObj) :
    CrudResult × List JsObj :=
  if chainParam.primaryKey = "" then
    (.httpError Status.BAD_REQUEST, writeableData)
  else
    let itemIndex :=
      match chainParam.restId with
      | some id =>
        writeableData.findIdx? (fun itm => looseEq (getField itm chainParam.primaryKey) (.str id))
      | none => none
    if chainParam.restId = none ∨ (itemIndex = none ∧ cfg.deleteNotFound404) then
      (.httpError Status.NOT_FOUND, writeableData)
    else
      match itemIndex with
      | some i => (.response ⟨Status.NO_CONTENT, .noBody, none⟩, writeableData.eraseIdx i)
      | none => (.response ⟨Status.NO_CONTENT, .noBody, none⟩, writeableData)

example : genId [] "id" = 1 := by decide
example : genId [[("id", .num 1)]] "id" = 2 := by decide
example : genId [[("id", .num (-5))]] "id" = 1 := by decide
example :
    post {} "posts" (some []) ⟨"posts", "id", none, none⟩ []
      = (.response ⟨201, .item [("id", .num 1)], some "posts/1"⟩, [[("id", .num 1)]]) := by decide

/-! ## The mock store (`cachedData`, `cacheDataWithGetMethod`, `getParents`)

State is threaded explicitly: `CacheData` maps cache keys to `MockData`;
the optional parsed content of the external local storage is an input
(`ls`); writes to local storage are external side effects outside the
model. A thrown JS exception (`TypeError`, property access on
`undefined`) is `Except.error ()`. -/

/-- Embeds `CacheData` from `types.ts`, as an association list. -/
abbrev CacheAssoc := List (String × MockData)

/-- Embeds `this.cachedData[cacheKey]` (read). -/
def cacheGet (c : CacheAssoc) (k : String) : Option MockData :=
  (c.find? (fun p => p.1 == k)).map (fun p => p.2)

/-- Embeds `this.cachedData[cacheKey] = md` (write). -/
def cacheSet (c : CacheAssoc) (k : String) (md : MockData) : CacheAssoc :=
  if c.any (fun p => p.1 == k) then
    c.map (fun p => if p.1 == k then (k, md) else p)
  else
    c ++ [(k, md)]

/-- Modelled from the spec: the readonly projection
(`pickAllPropertiesAsGetters` of the `pick-properties` module, which is
not under `src/`). Spec §3: `readonlyItems` is the writable list with
each item optionally narrowed to the configured property template
(`propertiesForList`), property values taken from the item. -/
def readonlyProj (propertiesForList : Option JsObj) (items : List JsObj) : List JsObj :=
  match propertiesForList with
  | some tpl => items.map (fun d => d.filter (fun p => (keys tpl).contains p.1))
  | none => items

/-- Embeds `applyDataFromLocalStorage`: hydrate the cache entry for this key from
the parsed external blob when it holds one; corruption (`none`) is
recovered by proceeding as a miss. -/
def applyDataFromLocalStorage (route : Route) (ls : Option CacheAssoc)
    (cache : CacheAssoc) (cacheKey : String) : CacheAssoc :=
  match ls with
  | some lsData =>
    match cacheGet lsData cacheKey with
    | some md => cacheSet cache cacheKey ⟨md.writeableData, readonlyProj route.propertiesForList md.writeableData⟩
    | none => cache
  | none => cache

/-- Embeds `cacheDataWithGetMethod`: on a miss, invoke the route's `dataCallback`
with `items: []` and `httpMethod: 'GET'`; a falsy return is coerced to
`[]` by `(cb && cb(opts)) || []`; a remaining non-array return throws a
`TypeError`. An absent `chainParam.route` also throws (property access on
`undefined`). -/
def cacheDataWithGetMethod (cfg : ApiMockConfig) (ls : Option CacheAssoc)
    (cache : CacheAssoc) (chainParam : ChainParam) (parents : Option (List JsObj))
    (queryParams : List (String × String)) (body : Option JsObj)
    (headers : List (String × String)) : Except Unit (MockData × CacheAssoc) :=
  match chainParam.route with
  | none => .error ()
  | some route =>
    let cache :=
      if cfg.cacheFromLocalStorage && !route.ignoreDataFromLocalStorage then
        applyDataFromLocalStorage route ls cache chainParam.cacheKey
      else cache
    match cacheGet cache chainParam.cacheKey with
    | some md => .ok (md, cache)
    | none =>
      let opts : DataCbOpts :=
        ⟨[], chainParam.restId, .GET, parents, queryParams, body, headers⟩
      let ret :=
        match route.dataCallback with
        | some cb => if truthyRet (cb opts) then cb opts else .arr []
        | none => .arr []
      match ret with
      | .arr writeableData =>
        let md : MockData := ⟨writeableData, readonlyProj route.propertiesForList writeableData⟩
        .ok (md, cacheSet cache chainParam.cacheKey md)
      | .prim _ => .error ()

/-- The outcome of `getParents`: a 404 `HttpErrorResponse` (item not
found) or the resolved parent items (`undefined` when there are none). -/
inductive ParentsResult where
  | err404
  | parents (ps : Option (List JsObj))

/-- The loop of `getParents` over all chain params but the last. -/
def getParentsLoop (cfg : ApiMockConfig) (ls : Option CacheAssoc)
    (queryParams : List (String × String)) (body : Option JsObj)
    (headers : List (String × String)) :
    List ChainParam → CacheAssoc → List JsObj → Except Unit (ParentsResult × CacheAssoc)
  | [], cache, parents =>
    .ok (.parents (if parents.isEmpty then none else some parents), cache)
  | chainParam :: rest, cache, parents =>
    let currParents := if parents.isEmpty then none else some parents
    match cacheDataWithGetMethod cfg ls cache chainParam currParents queryParams body headers with
    | .error e => .error e
    | .ok (md, cache') =>
      match findWithTruthyPk md.writeableData chainParam.primaryKey chainParam.restId with
      | none => .ok (.err404, cache')
      | some item => getParentsLoop cfg ls queryParams body headers rest cache' (parents ++ [item])

/-- Embeds `getParents(req, chainParams)`: walks every chain param but the last. -/
def getParents (cfg : ApiMockConfig) (ls : Option CacheAssoc)
    (queryParams : List (String × String)) (body : Option JsObj)
    (headers : List (String × String)) (chainParams : List ChainParam)
    (cache : CacheAssoc) : Except Unit (ParentsResult × CacheAssoc) :=
  getParentsLoop cfg ls queryParams body headers chainParams.dropLast cache []

/-- The top-level `handle`: any exception thrown while handling a request
is caught and converted into a 500 Internal Server Error envelope. -/
def handleCatch (x : Except Unit CrudResult) : CrudResult :=
  match x with
  | .ok r => r
  | .error _ => .httpError Status.INTERNAL_SERVER_ERROR

/-! ## Helper lemmas -/

theorem strAppendAssoc (a b c : String) : a ++ b ++ c = a ++ (b ++ c) := by
  cases a with
  | mk da =>
    cases b with
    | mk db =>
      cases c with
      | mk dc => exact congrArg String.mk (List.append_assoc da db dc)

theorem getField_setField (o : JsObj) (k : String) (v : JsVal) (k' : String) :
    getField (setField o k v) k' = if k' = k then v else getField o k' := by
  induction o with
  | nil =>
    by_cases h : k' = k
    · subst h; simp [setField, getField]
    · have h' : ¬ k = k' := fun hh => h hh.symm
      simp [setField, getField, h, h']
  | cons p rest ih =>
    by_cases hpk : p.1 = k
    · by_cases h : k' = k
      · subst h; simp [setField, hpk, getField]
      · have hp' : ¬ p.1 = k' := fun hh => h ((hpk.symm.trans hh).symm)
        have h' : ¬ k = k' := fun hh => h hh.symm
        simp [setField, hpk, getField, h, h', hp']
    · by_cases hp' : p.1 = k'
      · have h : ¬ k' = k := fun hh => hpk (hp'.trans hh)
        simp [setField, hpk, getField, hp', h]
      · simp [setField, hpk, getField, hp', ih]

theorem getField_filter_keys (o : JsObj) (ks : List String) (k : String) :
    getField (o.filter (fun p => decide (p.1 ∈ ks))) k
      = if k ∈ ks then getField o k else JsVal.undef := by
  induction o with
  | nil => simp [getField]
  | cons p rest ih =>
    by_cases hmem : p.1 ∈ ks
    · by_cases hpk : p.1 = k
      · subst hpk
        simp [List.filter, hmem, getField, ih]
      · simp [List.filter, hmem, getField, hpk, ih]
    · by_cases hpk : p.1 = k
      · subst hpk
        simp [List.filter, hmem, getField, ih]
      · simp [List.filter, hmem, getField, hpk, ih]

theorem getField_assignObj (u : JsObj) (hnd : (keys u).Nodup) (o : JsObj) (k : String) :
    getField (assignObj o u) k = if k ∈ keys u then getField u k else getField o k := by
  induction u generalizing o with
  | nil => simp [assignObj, keys]
  | cons q rest ih =>
    have hcons : keys (q :: rest) = q.1 :: keys rest := by simp [keys]
    rw [hcons, List.nodup_cons] at hnd
    obtain ⟨hq, hrest⟩ := hnd
    simp only [assignObj]
    rw [ih hrest, hcons]
    by_cases hk : k = q.1
    · subst hk
      rw [if_neg hq, if_pos (List.mem_cons_self q.1 (keys rest)), getField_setField]
      simp [getField]
    · have hq1k : ¬ q.1 = k := fun hh => hk hh.symm
      by_cases hkr : k ∈ keys rest
      · rw [if_pos hkr, if_pos (List.mem_cons_of_mem q.1 hkr)]
        simp [getField, hq1k]
      · have hnot : k ∉ q.1 :: keys rest := by simp [hk, hkr]
        rw [if_neg hkr, if_neg hnot, getField_setField, if_neg hk]

/-! ## Claim C8: `genId` -/

/-- The numeric values held under the primary key across the items. -/
def numericPkValues (data : List JsObj) (pk : String) : List Int :=
  data.filterMap fun o =>
    match getField o pk with
    | .num n => some n
    | _ => none

theorem genId_fold_eq (pk : String) (data : List JsObj) : ∀ init : Int,
    data.foldl
      (fun prevId item =>
        let currId := match getField item pk with
          | .num n => n
          | _ => prevId
        max prevId currId)
      init = (numericPkValues data pk).foldl max init := by
  induction data with
  | nil => intro init; simp [numericPkValues]
  | cons o rest ih =>
    intro init
    simp only [List.foldl_cons, numericPkValues, List.filterMap_cons]
    cases hv : getField o pk <;>
      simp_all [numericPkValues, max_self]

theorem foldl_max_init_le (l : List Int) : ∀ init : Int, init ≤ l.foldl max init := by
  induction l with
  | nil => intro init; simp
  | cons x rest ih =>
    intro init
    calc init ≤ max init x := le_max_left _ _
    _ ≤ rest.foldl max (max init x) := ih _

/-- C8, corrected. `genId` returns one greater than the maximum of `0` and
the numeric values held under the primary key across the items (an item
with a non-numeric or absent value leaves the running maximum unchanged);
hence the result is always at least `1`, and `1` for an empty collection.
The original claim's "one greater than that (negative) maximum" for an
all-negative collection fails: the fold starts at `0`. -/
theorem genId_amended (data : List JsObj) (pk : String) :
    genId data pk = (numericPkValues data pk).foldl max 0 + 1
    ∧ 1 ≤ genId data pk
    ∧ genId [] pk = 1 := by
  refine ⟨?_, ?_, rfl⟩
  · simp [genId, genId_fold_eq]
  · have h0 : (0 : Int) ≤ (numericPkValues data pk).foldl max 0 := foldl_max_init_le _ 0
    simp only [genId, genId_fold_eq]
    omega

/-- C8, counterexample to the claim as stated: for the collection whose
only numeric primary-key value is `-5`, `genId` returns `1`, not
`-5 + 1 = -4`. -/
theorem genId_negative_counterexample :
    genId [[("id", .num (-5))]] "id" = 1
    ∧ genId [[("id", .num (-5))]] "id" ≠ (-5 : Int) + 1 := by
  constructor <;> decide

/-! ## Claim C4: the POST collection scenario -/

/-- C4. On a collection URL (no bound id) of a route with primary key
`id`: a POST with a body omitting `id` on the empty collection stores
`{id: 1}` and returns 201 Created with `Location: <collectionUrl>/1`; a
second such POST assigns id `2`; a POST with body `{id: 1}` then returns
409 Conflict when `postUpdate409` is enabled, and with it disabled
overwrites the stored item and returns 204 No Content when
`postUpdate204` is set, otherwise 200 OK with the item. -/
theorem post_collection_scenario (cfg : ApiMockConfig) (url : String) :
    post cfg url (some []) ⟨url, "id", none, none⟩ []
      = (.response ⟨Status.CREATED, .item [("id", .num 1)], some (url ++ "/1")⟩,
          [[("id", .num 1)]])
    ∧ post cfg url (some []) ⟨url, "id", none, none⟩ [[("id", .num 1)]]
      = (.response ⟨Status.CREATED, .item [("id", .num 2)], some (url ++ "/2")⟩,
          [[("id", .num 1)], [("id", .num 2)]])
    ∧ post { cfg with postUpdate409 := true } url (some [("id", .num 1)])
        ⟨url, "id", none, none⟩ [[("id", .num 1)], [("id", .num 2)]]
      = (.httpError Status.CONFLICT, [[("id", .num 1)], [("id", .num 2)]])
    ∧ post { cfg with postUpdate409 := false, postUpdate204 := true } url
        (some [("id", .num 1)]) ⟨url, "id", none, none⟩ [[("id", .num 1)], [("id", .num 2)]]
      = (.response ⟨Status.NO_CONTENT, .noBody, none⟩, [[("id", .num 1)], [("id", .num 2)]])
    ∧ post { cfg with postUpdate409 := false, postUpdate204 := false } url
        (some [("id", .num 1)]) ⟨url, "id", none, none⟩ [[("id", .num 1)], [("id", .num 2)]]
      = (.response ⟨Status.OK, .item [("id", .num 1)], none⟩,
          [[("id", .num 1)], [("id", .num 2)]]) := by
  have h1 : ("/" : String) ++ "1" = "/1" := rfl
  have h2 : ("/" : String) ++ "2" = "/2" := rfl
  refine ⟨?_, ?_, rfl, rfl, rfl⟩
  · rw [show url ++ "/1" = url ++ "/" ++ "1" from (h1 ▸ strAppendAssoc url "/" "1").symm]
    rfl
  · rw [show url ++ "/2" = url ++ "/" ++ "2" from (h2 ▸ strAppendAssoc url "/" "2").symm]
    rfl

/-! ## Claim C7: DELETE -/

/-- C7. DELETE without a primary key in the route is 400; without a bound
id, or with an unmatched id while `deleteNotFound404` is set, it is 404
with the collection unchanged; with an unmatched id and the flag
disabled it is 204 with the collection unchanged; with a matched id the
item is removed and the response is 204 No Content. -/
theorem delete_spec (cfg : ApiMockConfig) (chainParam : ChainParam) (data : List JsObj) :
    (chainParam.primaryKey = "" →
      delete cfg chainParam data = (.httpError Status.BAD_REQUEST, data))
    ∧ (chainParam.primaryKey ≠ "" → chainParam.restId = none →
      delete cfg chainParam data = (.httpError Status.NOT_FOUND, data))
    ∧ (∀ rid, chainParam.primaryKey ≠ "" → chainParam.restId = some rid →
      data.findIdx? (fun itm => looseEq (getField itm chainParam.primaryKey) (.str rid)) = none →
      cfg.deleteNotFound404 = true →
      delete cfg chainParam data = (.httpError Status.NOT_FOUND, data))
    ∧ (∀ rid, chainParam.primaryKey ≠ "" → chainParam.restId = some rid →
      data.findIdx? (fun itm => looseEq (getField itm chainParam.primaryKey) (.str rid)) = none →
      cfg.deleteNotFound404 = false →
      delete cfg chainParam data = (.response ⟨Status.NO_CONTENT, .noBody, none⟩, data))
    ∧ (∀ rid i, chainParam.primaryKey ≠ "" → chainParam.restId = some rid →
      data.findIdx? (fun itm => looseEq (getField itm chainParam.primaryKey) (.str rid)) = some i →
      delete cfg chainParam data = (.response ⟨Status.NO_CONTENT, .noBody, none⟩, data.eraseIdx i)) := by
  refine ⟨?_, ?_, ?_, ?_, ?_⟩
  · intro h; simp [delete, h]
  · intro h hr; simp [delete, h, hr]
  · intro rid h hr hidx hflag; simp [delete, h, hr, hidx, hflag]
  · intro rid h hr hidx hflag; simp [delete, h, hr, hidx, hflag]
  · intro rid i h hr hidx; simp [delete, h, hr, hidx]

/-! ## Claims C5 and C6: PUT/PATCH -/

/-- C5, corrected. For a PUT or PATCH whose bound id matches an existing
item: PUT first deletes from the stored item every field not present in
the request item and then merges the request item's fields (so the stored
result carries exactly the request item's fields), while PATCH merges
without deleting (fields outside the request item keep their stored
values); the response is 204 No Content when the corresponding
`*Update204` flag is set, otherwise 200 OK — whose body is the request
item (the cloned body with the primary key defaulted from the URL), not
necessarily the merged stored item. -/
theorem putOrPatch_existing_spec (cfg : ApiMockConfig) (method : HttpMethod)
    (body : Option JsObj) (chainParam : ChainParam) (data : List JsObj)
    (rid : String) (i : Nat)
    (hpk : chainParam.primaryKey ≠ "")
    (hrid : chainParam.restId = some rid)
    (hguard : looseEq (.str rid) (getField (reqItem body chainParam) chainParam.primaryKey) = true)
    (hidx : data.findIdx?
      (fun itm => looseEq (getField itm chainParam.primaryKey) (.str rid)) = some i)
    (hnd : (keys (reqItem body chainParam)).Nodup) :
    putOrPatch cfg method body chainParam data
      = ((if (if method = .PUT then cfg.putUpdate204 else cfg.patchUpdate204)
            then CrudResult.response ⟨Status.NO_CONTENT, .noBody, none⟩
            else CrudResult.response ⟨Status.OK, .item (reqItem body chainParam), none⟩),
          data.set i (assignObj
            (if method = .PUT then
              (data.getD i []).filter (fun p => decide (p.1 ∈ keys (reqItem body chainParam)))
            else data.getD i [])
            (reqItem body chainParam)))
    ∧ (∀ k, getField (assignObj
          ((data.getD i []).filter (fun p => decide (p.1 ∈ keys (reqItem body chainParam))))
          (reqItem body chainParam)) k
        = if k ∈ keys (reqItem body chainParam) then getField (reqItem body chainParam) k
          else JsVal.undef)
    ∧ (∀ k, getField (assignObj (data.getD i []) (reqItem body chainParam)) k
        = if k ∈ keys (reqItem body chainParam) then getField (reqItem body chainParam) k
          else getField (data.getD i []) k) := by
  refine ⟨?_, ?_, ?_⟩
  · simp only [putOrPatch, if_neg hpk, hrid, hguard]
    simp [hidx]
  · intro k
    rw [getField_assignObj _ hnd, getField_filter_keys]
    by_cases hmem : k ∈ keys (reqItem body chainParam) <;> simp [hmem]
  · intro k
    rw [getField_assignObj _ hnd]

theorem putOrPatch_existing_witness :
    putOrPatch {} .PUT (some [("id", .num 1), ("a", .num 9)])
        ⟨"posts", "id", some "1", none⟩ [[("id", .num 1), ("b", .num 2)]]
      = (.response ⟨Status.NO_CONTENT, .noBody, none⟩, [[("id", .num 1), ("a", .num 9)]]) :=
  (putOrPatch_existing_spec {} .PUT (some [("id", .num 1), ("a", .num 9)])
    ⟨"posts", "id", some "1", none⟩ [[("id", .num 1), ("b", .num 2)]] "1" 0
    (by decide) rfl (by decide) (by decide) (by decide)).1

/-- C5, counterexample to the claim as stated: a PATCH on a stored item
`{id: 1, b: 2}` with body `{a: 9}` and `patchUpdate204 = false` answers
200 OK with the request item `{a: 9, id: "1"}`, which is not the updated
stored item `{id: "1", b: 2, a: 9}` (the response body lacks `b`). -/
theorem putOrPatch_patch_body_counterexample :
    putOrPatch { patchUpdate204 := false } .PATCH (some [("a", .num 9)])
        ⟨"posts", "id", some "1", none⟩ [[("id", .num 1), ("b", .num 2)]]
      = (.response ⟨Status.OK, .item [("a", .num 9), ("id", .str "1")], none⟩,
          [[("id", .str "1"), ("b", .num 2), ("a", .num 9)]])
    ∧ getField [("a", .num 9), ("id", .str "1")] "b"
        ≠ getField [("id", .str "1"), ("b", .num 2), ("a", .num 9)] "b" := by
  constructor <;> decide

/-- C6. For a PUT or PATCH whose bound id matches no existing item: when
`putUpdate404` is set or the method is PATCH the response is 404 Not
Found and the collection is unchanged; otherwise (PUT with
`putUpdate404 = false`) the request item is appended and the response is
201 Created with the item. -/
theorem putOrPatch_missing_spec (cfg : ApiMockConfig) (method : HttpMethod)
    (body : Option JsObj) (chainParam : ChainParam) (data : List JsObj) (rid : String)
    (hpk : chainParam.primaryKey ≠ "")
    (hrid : chainParam.restId = some rid)
    (hguard : looseEq (.str rid) (getField (reqItem body chainParam) chainParam.primaryKey) = true)
    (hidx : data.findIdx?
      (fun itm => looseEq (getField itm chainParam.primaryKey) (.str rid)) = none) :
    (cfg.putUpdate404 = true ∨ method = .PATCH →
      putOrPatch cfg method body chainParam data = (.httpError Status.NOT_FOUND, data))
    ∧ (cfg.putUpdate404 = false → method = .PUT →
      putOrPatch cfg method body chainParam data
        = (.response ⟨Status.CREATED, .item (reqItem body chainParam), none⟩,
            data ++ [reqItem body chainParam])) := by
  constructor
  · intro h
    simp only [putOrPatch, if_neg hpk, hrid, hguard]
    rcases h with h | h
    · simp [hidx, h]
    · simp [hidx, h]
  · intro h hm
    simp only [putOrPatch, if_neg hpk, hrid, hguard]
    subst hm
    simp [hidx, h]

theorem putOrPatch_missing_witness :
    putOrPatch {} .PUT (some [("id", .str "9")]) ⟨"posts", "id", some "9", none⟩ []
      = (.httpError Status.NOT_FOUND, [])
    ∧ putOrPatch { putUpdate404 := false } .PUT (some [("id", .str "9")])
        ⟨"posts", "id", some "9", none⟩ []
      = (.response ⟨Status.CREATED, .item [("id", .str "9")], none⟩, [[("id", .str "9")]]) :=
  ⟨(putOrPatch_missing_spec {} .PUT (some [("id", .str "9")])
      ⟨"posts", "id", some "9", none⟩ [] "9" (by decide) rfl (by decide) rfl).1 (Or.inl rfl),
   (putOrPatch_missing_spec { putUpdate404 := false } .PUT (some [("id", .str "9")])
      ⟨"posts", "id", some "9", none⟩ [] "9" (by decide) rfl (by decide) rfl).2 rfl rfl⟩

theorem delete_spec_witness :
    delete {} ⟨"posts", "id", some "5", none⟩ [] = (.httpError Status.NOT_FOUND, [])
    ∧ delete { deleteNotFound404 := false } ⟨"posts", "id", some "5", none⟩ []
      = (.response ⟨Status.NO_CONTENT, .noBody, none⟩, [])
    ∧ delete {} ⟨"posts", "id", some "1", none⟩ [[("id", .num 1)]]
      = (.response ⟨Status.NO_CONTENT, .noBody, none⟩, []) :=
  ⟨(delete_spec {} ⟨"posts", "id", some "5", none⟩ []).2.2.1 "5" (by decide) rfl (by decide) rfl,
   (delete_spec { deleteNotFound404 := false } ⟨"posts", "id", some "5", none⟩ []).2.2.2.1 "5"
     (by decide) rfl (by decide) rfl,
   (delete_spec {} ⟨"posts", "id", some "1", none⟩ [[("id", .num 1)]]).2.2.2.2 "1" 0
     (by decide) rfl (by decide)⟩

/-! ## Claim C10: truthiness in the GET/parent lookup -/

/-- C10. The `get` and `getParents` item lookups require the stored
primary-key value to be truthy besides loosely equal to the URL id, so a
collection whose items all hold falsy primary-key values yields
404 "item not found" for a GET with a bound id and for parent resolution
at any non-final chain level; the POST, PUT/PATCH and DELETE lookups use
plain loose equality and do find such an item (shown on `{id: 0}`,
which GET with id `"0"` misses while DELETE removes it, POST with body
`{id: 0}` conflicts with it, and PUT with id `"0"` updates it). -/
theorem lookup_truthiness_spec :
    (∀ (chainParam : ChainParam) (md : MockData) (rid : String),
      chainParam.restId = some rid →
      (∀ o ∈ md.writeableData, truthy (getField o chainParam.primaryKey) = false) →
      get chainParam md = .httpError Status.NOT_FOUND)
    ∧ (∀ (cfg : ApiMockConfig) (ls : Option CacheAssoc) (qp : List (String × String))
        (body : Option JsObj) (hdrs : List (String × String)) (chainParam : ChainParam)
        (rest : List ChainParam) (cache : CacheAssoc) (parents : List JsObj)
        (route : Route) (md : MockData),
      cfg.cacheFromLocalStorage = false →
      chainParam.route = some route →
      cacheGet cache chainParam.cacheKey = some md →
      (∀ o ∈ md.writeableData, truthy (getField o chainParam.primaryKey) = false) →
      getParentsLoop cfg ls qp body hdrs (chainParam :: rest) cache parents
        = .ok (.err404, cache))
    ∧ get ⟨"posts", "id", some "0", none⟩ ⟨[[("id", .num 0)]], []⟩ = .httpError Status.NOT_FOUND
    ∧ delete {} ⟨"posts", "id", some "0", none⟩ [[("id", .num 0)]]
      = (.response ⟨Status.NO_CONTENT, .noBody, none⟩, [])
    ∧ (post { postUpdate409 := true } "posts" (some [("id", .num 0)])
        ⟨"posts", "id", none, none⟩ [[("id", .num 0)]]).1 = .httpError Status.CONFLICT
    ∧ (putOrPatch {} .PUT (some [("id", .num 0)]) ⟨"posts", "id", some "0", none⟩
        [[("id", .num 0)]]).1 = .response ⟨Status.NO_CONTENT, .noBody, none⟩ := by
  have hfind : ∀ (data : List JsObj) (pk : String) (restId : Option String),
      (∀ o ∈ data, truthy (getField o pk) = false) →
      findWithTruthyPk data pk restId = none := by
    intro data pk restId h
    rw [findWithTruthyPk, List.find?_eq_none]
    intro o ho
    simp [h o ho]
  refine ⟨?_, ?_, ?_, ?_, ?_, ?_⟩
  · intro chainParam md rid hrid h
    simp [get, hrid, hfind md.writeableData chainParam.primaryKey (some rid) h]
  · intro cfg ls qp body hdrs chainParam rest cache parents route md hflag hroute hcache h
    simp [getParentsLoop, cacheDataWithGetMethod, hroute, hflag, hcache,
      hfind md.writeableData chainParam.primaryKey chainParam.restId h]
  · decide
  · decide
  · decide
  · decide

theorem lookup_truthiness_witness :
    get ⟨"posts", "id", some "0", some (.mk none "posts/:id" none none false [])⟩
        ⟨[[("id", .num 0)], [("id", .str "")]], []⟩ = .httpError Status.NOT_FOUND
    ∧ getParentsLoop {} none [] none []
        [⟨"posts", "id", some "0", some (.mk none "posts/:id" none none false [])⟩]
        [("posts", ⟨[[("id", .num 0)]], []⟩)] []
      = .ok (.err404, [("posts", ⟨[[("id", .num 0)]], []⟩)]) :=
  ⟨lookup_truthiness_spec.1
      ⟨"posts", "id", some "0", some (.mk none "posts/:id" none none false [])⟩
      ⟨[[("id", .num 0)], [("id", .str "")]], []⟩ "0" rfl (by decide),
   lookup_truthiness_spec.2.1 {} none [] none []
      ⟨"posts", "id", some "0", some (.mk none "posts/:id" none none false [])⟩
      [] [("posts", ⟨[[("id", .num 0)]], []⟩)] []
      (.mk none "posts/:id" none none false []) ⟨[[("id", .num 0)]], []⟩
      rfl rfl rfl (by decide)⟩

/-! ## Claim C9: the data-callback contract on a cache miss -/

/-- C9, corrected. On a cache miss the store invokes the route's data
callback with `items: []` and `httpMethod: 'GET'`: an array return
becomes the cached writable data; a *truthy* non-array return raises a
fatal type error, converted by the top-level handler into a 500 Internal
Server Error envelope instead of propagating. (A falsy non-array return
is coerced to `[]` by `(cb && cb(opts)) || []` and raises no error — see
the counterexample.) -/
theorem cacheDataWithGetMethod_spec (cfg : ApiMockConfig) (ls : Option CacheAssoc)
    (cache : CacheAssoc) (chainParam : ChainParam) (parents : Option (List JsObj))
    (qp : List (String × String)) (body : Option JsObj) (hdrs : List (String × String))
    (route : Route) (cb : DataCbOpts → CbRet)
    (hflag : cfg.cacheFromLocalStorage = false)
    (hroute : chainParam.route = some route)
    (hcb : route.dataCallback = some cb)
    (hmiss : cacheGet cache chainParam.cacheKey = none) :
    (∀ l, cb ⟨[], chainParam.restId, .GET, parents, qp, body, hdrs⟩ = .arr l →
      cacheDataWithGetMethod cfg ls cache chainParam parents qp body hdrs
        = .ok (⟨l, readonlyProj route.propertiesForList l⟩,
            cacheSet cache chainParam.cacheKey ⟨l, readonlyProj route.propertiesForList l⟩))
    ∧ (∀ v, cb ⟨[], chainParam.restId, .GET, parents, qp, body, hdrs⟩ = .prim v →
        truthy v = true →
        cacheDataWithGetMethod cfg ls cache chainParam parents qp body hdrs = .error ()
        ∧ ∀ f : MockData × CacheAssoc → CrudResult,
            handleCatch
              ((cacheDataWithGetMethod cfg ls cache chainParam parents qp body hdrs).map f)
              = .httpError Status.INTERNAL_SERVER_ERROR) := by
  constructor
  · intro l hl
    simp [cacheDataWithGetMethod, hroute, hflag, hmiss, hcb, hl, truthyRet]
  · intro v hv htr
    have herr : cacheDataWithGetMethod cfg ls cache chainParam parents qp body hdrs
        = .error () := by
      simp [cacheDataWithGetMethod, hroute, hflag, hmiss, hcb, hv, truthyRet, htr]
    refine ⟨herr, ?_⟩
    intro f
    rw [herr]
    rfl

theorem cacheDataWithGetMethod_spec_witness :
    handleCatch ((cacheDataWithGetMethod {} none []
        ⟨"api", "id", none,
          some (.mk none "api/:id" (some fun _ => .prim (.num 7)) none false [])⟩
        none [] none []).map (fun _ => .response ⟨Status.OK, .noBody, none⟩))
      = .httpError Status.INTERNAL_SERVER_ERROR :=
  ((cacheDataWithGetMethod_spec {} none []
      ⟨"api", "id", none,
        some (.mk none "api/:id" (some fun _ => .prim (.num 7)) none false [])⟩
      none [] none []
      (.mk none "api/:id" (some fun _ => .prim (.num 7)) none false [])
      (fun _ => .prim (.num 7)) rfl rfl rfl rfl).2 (.num 7) rfl rfl).2 _

/-- C9, counterexample to the claim as stated: a callback returning the
non-array value `null` does not raise a type error; the falsy return is
coerced to `[]` and an empty collection is cached. -/
theorem cacheData_falsy_counterexample :
    cacheDataWithGetMethod {} none []
        ⟨"api", "id", none,
          some (.mk none "api/:id" (some fun _ => .prim .null) none false [])⟩
        none [] none []
      = .ok (⟨[], []⟩, [("api", ⟨[], []⟩)]) := rfl

/-! ## Claim C1: root index and `findRouteIndex` -/

theorem insertRootEntry_mem (e x : RootEntry) :
    ∀ l : List RootEntry, x ∈ insertRootEntry e l ↔ x = e ∨ x ∈ l := by
  intro l
  induction l with
  | nil => simp [insertRootEntry]
  | cons a l ih =>
    by_cases h : e.length ≤ a.length
    · simp only [insertRootEntry, if_pos h, List.mem_cons, ih]
      tauto
    · simp only [insertRootEntry, if_neg h, List.mem_cons]

theorem insertRootEntry_pairwise (e : RootEntry) (l : List RootEntry)
    (h : l.Pairwise (fun a b => b.length ≤ a.length)) :
    (insertRootEntry e l).Pairwise (fun a b => b.length ≤ a.length) := by
  induction l with
  | nil => simp [insertRootEntry]
  | cons a l ih =>
    rw [List.pairwise_cons] at h
    obtain ⟨ha, hl⟩ := h
    by_cases hle : e.length ≤ a.length
    · rw [insertRootEntry, if_pos hle, List.pairwise_cons]
      refine ⟨?_, ih hl⟩
      intro y hy
      rcases (insertRootEntry_mem e y l).mp hy with rfl | hy'
      · exact hle
      · exact ha y hy'
    · rw [insertRootEntry, if_neg hle, List.pairwise_cons]
      refine ⟨?_, List.pairwise_cons.mpr ⟨ha, hl⟩⟩
      intro y hy
      rcases List.mem_cons.mp hy with rfl | hy'
      · omega
      · exact le_trans (ha y hy') (by omega)

theorem sortRootEntries_pairwise (l : List RootEntry) :
    (sortRootEntries l).Pairwise (fun a b => b.length ≤ a.length) := by
  induction l with
  | nil => simp [sortRootEntries]
  | cons a l ih => exact insertRootEntry_pairwise a _ ih

theorem find?_first_longest (p : RootEntry → Bool) :
    ∀ l : List RootEntry, l.Pairwise (fun a b => b.length ≤ a.length) →
      ∀ e, l.find? p = some e → ∀ x ∈ l, p x = true → x.length ≤ e.length := by
  intro l
  induction l with
  | nil => intro _ e he; simp at he
  | cons a l ih =>
    intro h e he x hx hpx
    rw [List.pairwise_cons] at h
    obtain ⟨ha, hl⟩ := h
    cases hp : p a with
    | true =>
      rw [List.find?_cons_of_pos _ hp, Option.some_inj] at he
      subst he
      rcases List.mem_cons.mp hx with rfl | hx'
      · exact le_refl _
      · exact ha x hx'
    | false =>
      rw [List.find?_cons_of_neg _ (by simp [hp])] at he
      rcases List.mem_cons.mp hx with rfl | hx'
      · rw [hpx] at hp; cases hp
      · exact ih hl e he x hx' hpx

/-- C1. The built root index is sorted by descending path length;
`findRouteIndex` answers affirmatively exactly when some root entry's
truncation test matches the URL, the returned index belongs to a matching
entry whose length is maximal among all matching entries (so of two roots
that both prefix the URL, the longer one is selected); concretely, with
roots `posts` and `posts/featured` the URL `posts/featured/1` resolves to
`posts/featured`, and a root `posts` never matches a URL beginning
`posts-other/`. -/
theorem findRouteIndex_spec :
    (∀ routes : List Route,
      (getRootPaths routes).Pairwise (fun a b => b.length ≤ a.length))
    ∧ (∀ (routes : List Route) (url : String),
        (findRouteIndex (getRootPaths routes) url).isSome
          ↔ ∃ e ∈ getRootPaths routes, matchesRoot e url = true)
    ∧ (∀ (routes : List Route) (url : String) (i : Nat),
        findRouteIndex (getRootPaths routes) url = some i →
        ∃ e ∈ getRootPaths routes, e.index = i ∧ matchesRoot e url = true ∧
          ∀ x ∈ getRootPaths routes, matchesRoot x url = true → x.length ≤ e.length)
    ∧ findRouteIndex (getRootPaths [.mk none "posts/:id" none none false [],
        .mk none "posts/featured/:id" none none false []]) "posts/featured/1" = some 1
    ∧ findRouteIndex (getRootPaths [.mk none "posts/:id" none none false []])
        "posts-other/123" = none := by
  refine ⟨?_, ?_, ?_, by decide, by decide⟩
  · intro routes
    exact sortRootEntries_pairwise _
  · intro routes url
    rw [findRouteIndex]
    constructor
    · intro h
      cases hf : (getRootPaths routes).find? (fun e => matchesRoot e url) with
      | none => rw [hf] at h; simp at h
      | some e =>
        have hs := List.find?_some hf
        exact ⟨e, List.mem_of_find?_eq_some hf, hs⟩
    · rintro ⟨e, he, hm⟩
      cases hf : (getRootPaths routes).find? (fun e => matchesRoot e url) with
      | none =>
        have hn := List.find?_eq_none.mp hf e he
        exact absurd hm hn
      | some a => rfl
  · intro routes url i h
    rw [findRouteIndex] at h
    cases hf : (getRootPaths routes).find? (fun e => matchesRoot e url) with
    | none => rw [hf] at h; simp at h
    | some e =>
      rw [hf] at h
      simp at h
      have hs := List.find?_some hf
      exact ⟨e, List.mem_of_find?_eq_some hf, h, hs,
        find?_first_longest _ _ (sortRootEntries_pairwise _) e hf⟩

/-! ## Claim C2: the dry-match four-way case analysis -/

theorem splitChars_ne_nil (sep : Char) : ∀ l : List Char, splitChars sep l ≠ [] := by
  intro l
  cases l with
  | nil => simp [splitChars]
  | cons c rest =>
    rw [splitChars]
    by_cases h : c = sep <;> simp [h]

theorem jsSplit_length_pos (s : String) (c : Char) : 0 < (jsSplit s c).length := by
  rw [jsSplit, List.length_map]
  exact List.length_pos.mpr (splitChars_ne_nil c s.data)

/-- C2. At each visited node, the dry match compares the URL's segment
count with the accumulated route path's segment count and behaves exactly
as the four-way case analysis: strictly more URL segments recurses into
the children (emitting nothing at this level); fewer than count − 1
emits nothing; exactly count − 1 emits a candidate (with the final route
segment popped and no trailing id) only when the final segment starts
with `:`, its name becoming the trailing primary key; equal counts always
emits a candidate, with a trailing id bound exactly when the final
segment starts with `:`. `getRouteDryMatch` enters this recursion at the
root with the split URL. -/
theorem setRouteDryMatch_cases (countUrl : Nat) (splitedUrl : List String)
    (route : Route) (pathOfRoute : String) (routes : List Route) :
    (countUrl > (jsSplit (joinTruthy pathOfRoute route.path) '/').length →
      setRouteDryMatch countUrl splitedUrl route pathOfRoute routes
        = (route.children.map fun c =>
            setRouteDryMatch countUrl splitedUrl c (joinTruthy pathOfRoute route.path)
              (routes ++ [route])).flatten)
    ∧ (countUrl < (jsSplit (joinTruthy pathOfRoute route.path) '/').length - 1 →
      setRouteDryMatch countUrl splitedUrl route pathOfRoute routes = [])
    ∧ (countUrl = (jsSplit (joinTruthy pathOfRoute route.path) '/').length - 1 →
      setRouteDryMatch countUrl splitedUrl route pathOfRoute routes
        = if startsWithColon
              (((jsSplit (joinTruthy pathOfRoute route.path) '/').getLast?).getD "") then
            [⟨splitedUrl, (jsSplit (joinTruthy pathOfRoute route.path) '/').dropLast, false,
              jsDrop (((jsSplit (joinTruthy pathOfRoute route.path) '/').getLast?).getD "") 1,
              routes ++ [route]⟩]
          else [])
    ∧ (countUrl = (jsSplit (joinTruthy pathOfRoute route.path) '/').length →
      setRouteDryMatch countUrl splitedUrl route pathOfRoute routes
        = if startsWithColon
              (((jsSplit (joinTruthy pathOfRoute route.path) '/').getLast?).getD "") then
            [⟨splitedUrl, jsSplit (joinTruthy pathOfRoute route.path) '/', true,
              jsDrop (((jsSplit (joinTruthy pathOfRoute route.path) '/').getLast?).getD "") 1,
              routes ++ [route]⟩]
          else
            [⟨splitedUrl, jsSplit (joinTruthy pathOfRoute route.path) '/', false, "",
              routes ++ [route]⟩])
    ∧ (∀ (url : String) (root : Route),
        getRouteDryMatch url root
          = setRouteDryMatch (jsSplit url '/').length (jsSplit url '/') root
              (root.host.getD "") []) := by
  have hpos := jsSplit_length_pos (joinTruthy pathOfRoute route.path) '/'
  cases route with
  | mk h p cb pf ig children =>
    simp only [Route.path, Route.children] at hpos ⊢
    refine ⟨?_, ?_, ?_, ?_, fun url root => rfl⟩
    · intro hgt
      rw [setRouteDryMatch]
      simp only [Route.path, Route.children, if_pos hgt]
      exact congrArg List.flatten
        (List.attach_map_val children
          (fun c => setRouteDryMatch countUrl splitedUrl c (joinTruthy pathOfRoute p)
            (routes ++ [Route.mk h p cb pf ig children])))
    · intro hlt
      have h1 : ¬ countUrl > (jsSplit (joinTruthy pathOfRoute p) '/').length := by omega
      rw [setRouteDryMatch]
      simp only [Route.path, if_neg h1, if_pos hlt]
    · intro heq
      have h1 : ¬ countUrl > (jsSplit (joinTruthy pathOfRoute p) '/').length := by omega
      have h2 : ¬ countUrl < (jsSplit (joinTruthy pathOfRoute p) '/').length - 1 := by omega
      rw [setRouteDryMatch]
      simp only [Route.path, if_neg h1, if_neg h2, if_pos heq]
    · intro heq
      have h1 : ¬ countUrl > (jsSplit (joinTruthy pathOfRoute p) '/').length := by omega
      have h2 : ¬ countUrl < (jsSplit (joinTruthy pathOfRoute p) '/').length - 1 := by omega
      have h3 : ¬ countUrl = (jsSplit (joinTruthy pathOfRoute p) '/').length - 1 := by omega
      rw [setRouteDryMatch]
      simp only [Route.path, if_neg h1, if_neg h2, if_neg h3]

theorem setRouteDryMatch_cases_witness :
    2 = (jsSplit (joinTruthy "" "posts/:id") '/').length
    ∧ setRouteDryMatch 2 ["posts", "123"] (.mk none "posts/:id" none none false []) "" []
      = [⟨["posts", "123"], ["posts", ":id"], true, "id",
          [.mk none "posts/:id" none none false []]⟩] :=
  ⟨by decide,
   (setRouteDryMatch_cases 2 ["posts", "123"] (.mk none "posts/:id" none none false [])
      "" []).2.2.2.1 (by decide)⟩

/-! ## Claim C3: chain resolution -/

/-- From the spec's words: each `:`-token at position `i` of the route
segments yields a link whose `resourceId` is the aligned URL segment
(unbound when that segment is empty), whose `cacheKey` is the URL
segments before `i` joined with `/`, and which consumes the next
unconsumed route node (`k` counts the links already produced). -/
def specLinks (splitedUrl : List String) (routes : List Route) :
    List (Nat × String) → Nat → List ChainParam
  | [], _ => []
  | (i, part) :: rest, k =>
    if startsWithColon part then
      ⟨jsJoin "/" (splitedUrl.take i), jsDrop part 1, urlSegOpt splitedUrl i, routes.get? k⟩
        :: specLinks splitedUrl routes rest (k + 1)
    else
      specLinks splitedUrl routes rest k

/-- From the spec's words: the URL segments aligned with the literal
(non-`:`) route segments. -/
def litUrlParts (splitedUrl : List String) : List (Nat × String) → List String
  | [] => []
  | (i, part) :: rest =>
    if startsWithColon part then litUrlParts splitedUrl rest
    else urlSegD splitedUrl i :: litUrlParts splitedUrl rest

/-- From the spec's words: the literal (non-`:`) route segments. -/
def litRouteParts : List (Nat × String) → List String
  | [] => []
  | (_, part) :: rest =>
    if startsWithColon part then litRouteParts rest else part :: litRouteParts rest

theorem chainLoop_eq (splitedUrl : List String) (routes : List Route) :
    ∀ (l : List (Nat × String)) (chain : List ChainParam) (pu pr : List String),
      chainLoop splitedUrl routes l chain pu pr
        = (chain ++ specLinks splitedUrl routes l chain.length,
           pu ++ litUrlParts splitedUrl l, pr ++ litRouteParts l) := by
  intro l
  induction l with
  | nil =>
    intro chain pu pr
    simp [chainLoop, specLinks, litUrlParts, litRouteParts]
  | cons q rest ih =>
    intro chain pu pr
    obtain ⟨i, part⟩ := q
    by_cases hc : startsWithColon part = true
    · rw [chainLoop, if_pos hc, ih]
      simp [specLinks, litUrlParts, litRouteParts, hc]
    · rw [chainLoop, if_neg hc, ih]
      simp [specLinks, litUrlParts, litRouteParts, hc]

/-- C3, corrected. `getChainParams` returns a chain exactly when the URL
segments aligned with literal route segments, joined with `/`, equal
those literal route segments joined with `/`; in the returned chain each
`:`-token at position `i` yields a link whose `resourceId` is the URL
segment at `i` when that segment is nonempty (an empty segment leaves
the id unbound — see the counterexample), and whose `cacheKey` is the
URL segments before `i` joined with `/`; when the candidate has no
trailing bound id, one final link is appended with the full URL as
`cacheKey` and no `resourceId`. -/
theorem getChainParams_spec (m : RouteDryMatch) :
    getChainParams m
      = if jsJoin "/" (litRouteParts m.splitedRoute.enum)
            == jsJoin "/" (litUrlParts m.splitedUrl m.splitedRoute.enum) then
          some (specLinks m.splitedUrl m.routes m.splitedRoute.enum 0
            ++ (if m.hasLastRestId then []
                else [⟨jsJoin "/" m.splitedUrl, m.lastPrimaryKey, none, m.routes.getLast?⟩]))
        else none := by
  rw [getChainParams, chainLoop_eq]
  simp only [List.nil_append, List.length_nil]
  by_cases hb : m.hasLastRestId <;> simp [hb]

/-- C3, counterexample to the claim as stated: for the dry-match
candidate of URL `posts/` against route `posts/:id` (segments
`["posts", ""]`), the `:`-token at position 1 aligns with the URL
segment `""`, yet the returned link binds no `resourceId` (the source's
`splitedUrl[i] || undefined` coerces the empty segment to `undefined`). -/
theorem getChainParams_emptySegment_counterexample :
    ((getChainParams ⟨["posts", ""], ["posts", ":id"], true, "id",
        [.mk none "posts/:id" none none false []]⟩).map
      (fun c => c.map (fun l => l.restId))) = some [none]
    ∧ ["posts", ""].get? 1 = some ""
    ∧ some [(none : Option String)] ≠ some [some ""] := by
  refine ⟨by decide, rfl, by decide⟩

theorem findRouteIndex_spec_witness :
    ∃ e ∈ getRootPaths [.mk none "posts/:id" none none false [],
        .mk none "posts/featured/:id" none none false []],
      e.index = 1 ∧ matchesRoot e "posts/featured/1" = true ∧
        ∀ x ∈ getRootPaths [.mk none "posts/:id" none none false [],
            .mk none "posts/featured/:id" none none false []],
          matchesRoot x "posts/featured/1" = true → x.length ≤ e.length :=
  findRouteIndex_spec.2.2.1 [.mk none "posts/:id" none none false [],
    .mk none "posts/featured/:id" none none false []] "posts/featured/1" 1 (by decide)

end Mock
